import Mathlib

/-!
# The simple-tool example server and the simple client

A shallow embedding of `examples/servers/simple-tool/main.go` (the handlers
`handleListTools`, `handleCallTool` and the helper `parseParams`) and of
`clients/simple-client/main.go` (`main`), together with the parts of
`encoding/json` and of the `types` package these functions call.

Conventions of the embedding.

* A Go `interface{}` holding request params is a `Value`: the values
  `encoding/json` itself stores in an `interface{}`, a `json.Number`, a string
  given by its bytes, and a value of a type that has no JSON encoding.
* `json.Marshal` produces a `Json` document, held as its tree with the
  members of each object in the order they are written; `json.Unmarshal`
  reads that tree.
* A Go function returning `(interface{}, error)` returns a pair of
  `Option`s, so "nil result" and "nil error" are both expressible.
* `ctx` and `reqCtx` are not read by the handlers and are left out; the
  clock read by `time.Now()` is passed in as the already formatted text.
-/

set_option autoImplicit false
set_option exponentiation.threshold 5000

namespace SimpleTool

/-! ## Numbers -/

/-- A Go number as `encoding/json` meets it: a `float64` given by its IEEE 754
bit pattern, a `json.Number` given by its text, or the `float64` that
`strconv.ParseFloat` returns for a number text (what a decoded JSON number
is, kept by the text it was read from). -/
inductive Number where
  | float64 (bits : Nat)
  | jsonNumber (lit : String)
  | parsed (lit : String)

/-- The parts of a JSON number text: the digits of the integer and fraction
parts read as one natural number, the number of fraction digits, and the
exponent with its sign. -/
structure NumberParts where
  mantissa : Nat
  fracLen : Nat
  expNeg : Bool
  exp : Nat

/-- The natural number written by a list of decimal digits. -/
def digitsToNat (ds : List Char) : Nat :=
  ds.foldl (fun n c => 10 * n + (c.toNat - 48)) 0

/-- The exponent part of a number text and the end of the text, as
`isValidNumber` of `encoding/json` reads them. -/
def scanExp (intDigits fracDigits : List Char) (s : List Char) : Option NumberParts :=
  match s with
  | [] =>
    some { mantissa := digitsToNat (intDigits ++ fracDigits), fracLen := fracDigits.length,
           expNeg := false, exp := 0 }
  | e :: r =>
    if (e = 'e' ∨ e = 'E') ∧ r ≠ [] then
      let signed : Bool × List Char :=
        match r with
        | '+' :: t => (false, t)
        | '-' :: t => (true, t)
        | _ => (false, r)
      if signed.2 ≠ [] ∧ signed.2.all Char.isDigit then
        some { mantissa := digitsToNat (intDigits ++ fracDigits), fracLen := fracDigits.length,
               expNeg := signed.1, exp := digitsToNat signed.2 }
      else none
    else none

/-- The fraction part of a number text and what follows it. -/
def scanFrac (intDigits : List Char) (s : List Char) : Option NumberParts :=
  match s with
  | '.' :: d :: r =>
    if d.isDigit then
      scanExp intDigits (d :: (r.span Char.isDigit).1) (r.span Char.isDigit).2
    else none
  | _ => scanExp intDigits [] s

/-- The function `isValidNumber` of `encoding/json`, returning the parts of
the number when the text is a JSON number: an optional minus sign, an integer
part without a leading zero, an optional fraction and an optional exponent. -/
def scanNumber (s : List Char) : Option NumberParts :=
  let unsigned : List Char :=
    match s with
    | '-' :: r => r
    | _ => s
  match unsigned with
  | [] => none
  | c :: r =>
    if c = '0' then scanFrac [c] r
    else if c.isDigit then scanFrac (c :: (r.span Char.isDigit).1) (r.span Char.isDigit).2
    else none

/-- The least magnitude that `strconv.ParseFloat(s, 64)` rounds to infinity:
halfway between the largest `float64` and `2^1024`. -/
def float64Overflow : Nat := 2 ^ 1024 - 2 ^ 970

/-- Whether `strconv.ParseFloat(s, 64)` reports a number text as out of range. -/
def NumberParts.overflows (p : NumberParts) : Bool :=
  if p.expNeg then
    decide (float64Overflow * 10 ^ (p.exp + p.fracLen) ≤ p.mantissa)
  else if p.fracLen ≤ p.exp then
    decide (float64Overflow ≤ p.mantissa * 10 ^ (p.exp - p.fracLen))
  else
    decide (float64Overflow * 10 ^ (p.fracLen - p.exp) ≤ p.mantissa)

/-- The text `json.Marshal` writes for a `json.Number`: the empty text is
written as `0`. -/
def numberText (lit : String) : String :=
  if lit = "" then "0" else lit

/-- The error of `json.Marshal` on a number: a `float64` that is NaN or
infinite is an unsupported value, and a `json.Number` must be a valid number
text (the quoting of `%q` is given for a text that needs no escapes). -/
def Number.marshalError : Number → Option String
  | .float64 bits =>
    if (bits / 2 ^ 52) % 2 ^ 11 = 2047 then
      if bits % 2 ^ 52 ≠ 0 then some "json: unsupported value: NaN"
      else if (bits / 2 ^ 63) % 2 = 0 then some "json: unsupported value: +Inf"
      else some "json: unsupported value: -Inf"
    else none
  | .jsonNumber lit =>
    match scanNumber (numberText lit).data with
    | some _ => none
    | none => some ("json: invalid number literal \"" ++ numberText lit ++ "\"")
  | .parsed _ => none

/-- The number text of a document, held as the number it was written from. -/
def Number.written : Number → Number
  | .jsonNumber lit => .jsonNumber (numberText lit)
  | n => n

/-- The text of a number of a document that is out of the range of `float64`,
if it is. A text written from a `float64` never is. -/
def Number.outOfRange : Number → Option String
  | .jsonNumber lit =>
    match scanNumber lit.data with
    | some parts => if parts.overflows then some lit else none
    | none => none
  | _ => none

/-- The `float64` an in-range number of a document decodes to. -/
def Number.decoded : Number → Number
  | .jsonNumber lit => .parsed lit
  | n => n

/-! ## Strings -/

/-- Whether a byte is a UTF-8 continuation byte. -/
def isContinuation (b : Nat) : Bool :=
  decide (0x80 ≤ b) && decide (b ≤ 0xBF)

/-- The function `utf8.DecodeRune`: the first character of a byte string and
its width, or U+FFFD with width 1 when the bytes do not start with a valid
encoding (a stray or missing continuation byte, an overlong form, a
surrogate, a value above U+10FFFF). -/
def decodeRune (bs : List UInt8) : Char × Nat :=
  match bs.map UInt8.toNat with
  | [] => (Char.ofNat 0xFFFD, 1)
  | b0 :: rest =>
    if b0 < 0x80 then (Char.ofNat b0, 1)
    else if 0xC2 ≤ b0 ∧ b0 ≤ 0xDF then
      match rest with
      | b1 :: _ =>
        if isContinuation b1 then (Char.ofNat ((b0 - 0xC0) * 64 + (b1 - 0x80)), 2)
        else (Char.ofNat 0xFFFD, 1)
      | _ => (Char.ofNat 0xFFFD, 1)
    else if 0xE0 ≤ b0 ∧ b0 ≤ 0xEF then
      match rest with
      | b1 :: b2 :: _ =>
        if (if b0 = 0xE0 then decide (0xA0 ≤ b1) && decide (b1 ≤ 0xBF)
            else if b0 = 0xED then decide (0x80 ≤ b1) && decide (b1 ≤ 0x9F)
            else isContinuation b1) && isContinuation b2 then
          (Char.ofNat ((b0 - 0xE0) * 4096 + (b1 - 0x80) * 64 + (b2 - 0x80)), 3)
        else (Char.ofNat 0xFFFD, 1)
      | _ => (Char.ofNat 0xFFFD, 1)
    else if 0xF0 ≤ b0 ∧ b0 ≤ 0xF4 then
      match rest with
      | b1 :: b2 :: b3 :: _ =>
        if (if b0 = 0xF0 then decide (0x90 ≤ b1) && decide (b1 ≤ 0xBF)
            else if b0 = 0xF4 then decide (0x80 ≤ b1) && decide (b1 ≤ 0x8F)
            else isContinuation b1) && isContinuation b2 && isContinuation b3 then
          (Char.ofNat ((b0 - 0xF0) * 262144 + (b1 - 0x80) * 4096 + (b2 - 0x80) * 64
            + (b3 - 0x80)), 4)
        else (Char.ofNat 0xFFFD, 1)
      | _ => (Char.ofNat 0xFFFD, 1)
    else (Char.ofNat 0xFFFD, 1)

/-- The characters `json.Marshal` writes for a Go string: it decodes one
character after the other and writes U+FFFD for every byte that starts no
valid encoding. Each step takes at least one byte, so a fuel of the length of
the string is enough. -/
def decodeRunes : Nat → List UInt8 → List Char
  | 0, _ => []
  | _, [] => []
  | fuel + 1, b :: rest =>
    (decodeRune (b :: rest)).1 :: decodeRunes fuel ((b :: rest).drop (decodeRune (b :: rest)).2)

/-- The text of a Go string given by its bytes, as `json.Marshal` writes it
and `json.Unmarshal` reads it back. -/
def marshalString (bs : List UInt8) : String :=
  String.mk (decodeRunes bs.length bs)

/-! ## Go values and JSON documents -/

/-- A Go value held in an `interface{}`: `nil`, a `bool`, a number, a string
of valid UTF-8 given as its text, any string given by its bytes, a
`[]interface{}`, a `map[string]interface{}` given by the assignments that
built it (oldest first, a later assignment to a key replacing an earlier
one; the keys are text), and a value of a Go type that has no JSON encoding,
such as a channel. -/
inductive Value where
  | null
  | bool (b : Bool)
  | number (n : Number)
  | str (s : String)
  | bytes (bs : List UInt8)
  | slice (elems : List Value)
  | map (members : List (String × Value))
  | unsupported (typ : String)

/-- A JSON document as its tree; an object lists its members in the order
they stand in the text. -/
inductive Json where
  | null
  | bool (b : Bool)
  | number (n : Number)
  | str (s : String)
  | array (elems : List Json)
  | object (members : List (String × Json))

/-- The order in which `json.Marshal` writes the keys of a map: the order of
their bytes, which for UTF-8 is the order of their characters. -/
def keyLess : List Char → List Char → Bool
  | _, [] => false
  | [], _ :: _ => true
  | a :: as, b :: bs =>
    if a.toNat < b.toNat then true
    else if b.toNat < a.toNat then false
    else keyLess as bs

/-- Insertion of a member into a list of members sorted by key. -/
def insertMember {α : Type} (x : String × α) : List (String × α) → List (String × α)
  | [] => [x]
  | y :: rest =>
    if keyLess y.1.data x.1.data then y :: insertMember x rest else x :: y :: rest

/-- The members of a map sorted by key. -/
def sortMembers {α : Type} : List (String × α) → List (String × α)
  | [] => []
  | x :: rest => insertMember x (sortMembers rest)

/-- The entries of the map a list of assignments builds: of the assignments
to one key only the last remains. -/
def lastAssignments {α : Type} : List (String × α) → List (String × α)
  | [] => []
  | kv :: rest =>
    if rest.any (fun other => other.1 == kv.1) then lastAssignments rest
    else kv :: lastAssignments rest

/-- The encodings of the entries of a map, in the order they are written, up
to the first that fails. -/
def sequenceMembers : List (String × Except String Json) → Except String (List (String × Json))
  | [] => .ok []
  | (_, .error err) :: _ => .error err
  | (k, .ok j) :: rest =>
    match sequenceMembers rest with
    | .error err => .error err
    | .ok js => .ok ((k, j) :: js)

mutual
/-- The encoder of `json.Marshal`: the document of a value, or the first
error met. The entries of a map are written sorted by key. -/
def encode : Value → Except String Json
  | .null => .ok .null
  | .bool b => .ok (.bool b)
  | .number n =>
    match n.marshalError with
    | some err => .error err
    | none => .ok (.number n.written)
  | .str s => .ok (.str s)
  | .bytes bs => .ok (.str (marshalString bs))
  | .slice elems =>
    match encodeElems elems with
    | .error err => .error err
    | .ok js => .ok (.array js)
  | .map members =>
    match sequenceMembers (sortMembers (lastAssignments (encodeMembers members))) with
    | .error err => .error err
    | .ok js => .ok (.object js)
  | .unsupported typ => .error ("json: unsupported type: " ++ typ)
/-- The encoder over the elements of a slice. -/
def encodeElems : List Value → Except String (List Json)
  | [] => .ok []
  | v :: rest =>
    match encode v with
    | .error err => .error err
    | .ok j =>
      match encodeElems rest with
      | .error err => .error err
      | .ok js => .ok (j :: js)
/-- The encoder over the assignments of a map, each with its own outcome. -/
def encodeMembers : List (String × Value) → List (String × Except String Json)
  | [] => []
  | (k, v) :: rest => (k, encode v) :: encodeMembers rest
end

/-- `json.Marshal`. -/
def jsonMarshal (v : Value) : Except String Json :=
  encode v

/-- The value `v` inside `n` nested one-element slices. -/
def nestSlices : Nat → Value → Value
  | 0, v => v
  | n + 1, v => .slice [nestSlices n v]

/-- The document `j` inside `n` nested one-element arrays. -/
def nestArrays : Nat → Json → Json
  | 0, j => j
  | n + 1, j => .array [nestArrays n j]

/-- The word `encoding/json` uses for a JSON value in `UnmarshalTypeError`. -/
def Json.kind : Json → String
  | .null => "null"
  | .bool _ => "bool"
  | .number _ => "number"
  | .str _ => "string"
  | .array _ => "array"
  | .object _ => "object"

/-! ## The `types` package -/

/-- Modelled from the spec: the constant `types.INVALID_PARAMS`, whose
declaration is in `pkg/mcp/types`; the spec aligns the error taxonomy with
JSON-RPC, where InvalidParams is -32602. -/
def INVALID_PARAMS : Int := -32602

/-- Modelled from the spec: the constant `types.METHOD_NOT_FOUND`, whose
declaration is in `pkg/mcp/types`; the spec aligns the error taxonomy with
JSON-RPC, where MethodNotFound is -32601. -/
def METHOD_NOT_FOUND : Int := -32601

/-- Modelled from the spec: the closed error taxonomy of section 6 (ParseError,
InvalidRequest, MethodNotFound, InvalidParams, InternalError) with its
JSON-RPC codes; the constants themselves are declared in `pkg/mcp/types`. -/
def errorTaxonomy : List Int := [-32700, -32600, -32601, -32602, -32603]

/-- The struct `types.ErrorData`, as far as the handlers fill it. -/
structure ErrorData where
  Code : Int
  Message : String

/-- The struct `types.Tool`, as far as the handlers fill it. -/
structure Tool where
  Name : String
  Description : String
  InputSchema : List (String × Value)

/-- The struct `types.ListToolsResult`. -/
structure ListToolsResult where
  Tools : List Tool

/-- The struct `types.CallToolResult`. -/
structure CallToolResult where
  Result : List (String × Value)

/-- Modelled from the spec: the struct `types.CallToolRequestParams`, declared
in `pkg/mcp/types`. The handler reads `Name` as a string and indexes
`Arguments` by a string to get an `interface{}`; the spec writes the params
as `{name: ..., arguments: ...}`. `Arguments` is `none` for a nil map, and a
non-nil map is held as the list of its assignments, oldest first. -/
structure CallToolRequestParams where
  Name : String := ""
  Arguments : Option (List (String × Value)) := none

/-- Go's `m[key]` on a `map[string]interface{}`: the value last assigned to
`key`, and the nil interface when the key is absent or the map is nil. -/
def mapIndex (m : Option (List (String × Value))) (key : String) : Value :=
  match m with
  | none => .null
  | some members =>
    match members.reverse.find? (fun kv => kv.1 == key) with
    | some kv => kv.2
    | none => .null

/-- Go's `v.(string)` in its two-result form: the string and `ok`. -/
def assertString : Value → String × Bool
  | .str s => (s, true)
  | _ => ("", false)

/-- A map built by a list of assignments binds `key` to `v`: `v` is what was
last assigned to `key`. -/
def Binds (members : List (String × Value)) (key : String) (v : Value) : Prop :=
  ∃ before after, members = before ++ (key, v) :: after ∧ ∀ kv ∈ after, kv.1 ≠ key

/-! ## Decoding into `CallToolRequestParams` -/

/-- The nesting depth beyond which the scanner of `encoding/json` rejects a
document. -/
def maxNestingDepth : Nat := 10000

mutual
/-- The bracket that opens the first array or object, in the order of the
text, nested deeper than `budget` levels below this value, if there is one. -/
def Json.firstTooDeep : Nat → Json → Option Char
  | _, .null => none
  | _, .bool _ => none
  | _, .number _ => none
  | _, .str _ => none
  | 0, .array _ => some '['
  | budget + 1, .array elems => firstTooDeepElems budget elems
  | 0, .object _ => some '{'
  | budget + 1, .object members => firstTooDeepMembers budget members
/-- The search of `Json.firstTooDeep` over the elements of an array. -/
def firstTooDeepElems : Nat → List Json → Option Char
  | _, [] => none
  | budget, j :: rest =>
    match j.firstTooDeep budget with
    | some c => some c
    | none => firstTooDeepElems budget rest
/-- The search of `Json.firstTooDeep` over the members of an object. -/
def firstTooDeepMembers : Nat → List (String × Json) → Option Char
  | _, [] => none
  | budget, (_, j) :: rest =>
    match j.firstTooDeep budget with
    | some c => some c
    | none => firstTooDeepMembers budget rest
end

/-- The first of two errors met in this order. -/
def firstError : Option String → Option String → Option String
  | some e, _ => some e
  | none, later => later

/-- The `UnmarshalTypeError` for a number text out of the range of `float64`;
`ctx` says where the decoder is (a struct field or the top level). -/
def numberRangeError (lit ctx : String) : String :=
  "json: cannot unmarshal number " ++ lit ++ " into Go " ++ ctx ++ " of type float64"

mutual
/-- Decoding a JSON value into an `interface{}`: the Go value and the first
error met. A number becomes a `float64` and is an error when out of range, in
which case nil is stored; nothing else fails. -/
def decodeInterface (ctx : String) : Json → Value × Option String
  | .null => (.null, none)
  | .bool b => (.bool b, none)
  | .number n =>
    match n.outOfRange with
    | some lit => (.null, some (numberRangeError lit ctx))
    | none => (.number n.decoded, none)
  | .str s => (.str s, none)
  | .array elems => (.slice (decodeElems ctx elems).1, (decodeElems ctx elems).2)
  | .object members => (.map (decodeMembers ctx members).1, (decodeMembers ctx members).2)
/-- Decoding the elements of an array into a `[]interface{}`. -/
def decodeElems (ctx : String) : List Json → List Value × Option String
  | [] => ([], none)
  | j :: rest =>
    ((decodeInterface ctx j).1 :: (decodeElems ctx rest).1,
      firstError (decodeInterface ctx j).2 (decodeElems ctx rest).2)
/-- Decoding the members of an object into the assignments to a
`map[string]interface{}`, in the order of the text. -/
def decodeMembers (ctx : String) : List (String × Json) → List (String × Value) × Option String
  | [] => ([], none)
  | (k, j) :: rest =>
    ((k, (decodeInterface ctx j).1) :: (decodeMembers ctx rest).1,
      firstError (decodeInterface ctx j).2 (decodeMembers ctx rest).2)
end

/-- The case folding of `encoding/json` for one character of an object key,
restricted to what can fold onto an ASCII letter: the ASCII capitals, the
long s (U+017F) and the Kelvin sign (U+212A). -/
def foldRune (c : Char) : Char :=
  if c = Char.ofNat 0x17F then 's'
  else if c = Char.ofNat 0x212A then 'k'
  else c.toLower

/-- Whether an object key selects the struct field with JSON name `field`
(a lower-case ASCII name): an exact match or a match under case folding. -/
def keyMatches (key field : String) : Bool :=
  key.data.map foldRune == field.data

/-- The decoder's state while it fills a `CallToolRequestParams`: the struct
so far and the first `UnmarshalTypeError` it has saved. -/
structure DecodeState where
  dest : CallToolRequestParams
  savedError : Option String

/-- The decoder's `saveError`: only the first error is kept. -/
def DecodeState.saveError (st : DecodeState) (e : String) : DecodeState :=
  match st.savedError with
  | some _ => st
  | none => { st with savedError := some e }

/-- The text of an `UnmarshalTypeError` for a struct field. -/
def fieldTypeError (v : Json) (field goType : String) : String :=
  "json: cannot unmarshal " ++ v.kind ++ " into Go struct field CallToolRequestParams."
    ++ field ++ " of type " ++ goType

/-- Decoding a JSON value into the `string` field `Name`: a string is stored,
`null` leaves the field as it is, anything else is a type error. -/
def decodeName (st : DecodeState) : Json → DecodeState
  | .str s => { st with dest := { st.dest with Name := s } }
  | .null => st
  | v => st.saveError (fieldTypeError v "name" "string")

/-- Decoding a JSON value into the `map[string]interface{}` field
`Arguments`: an object allocates the map when it is nil and assigns its
members in order, each decoded into an `interface{}`; `null` sets the map to
nil; anything else is a type error. -/
def decodeArguments (st : DecodeState) : Json → DecodeState
  | .object members =>
    let decoded := decodeMembers "struct field CallToolRequestParams.arguments" members
    let st' : DecodeState :=
      { st with dest := { st.dest with
          Arguments := some ((st.dest.Arguments.getD []) ++ decoded.1) } }
    match decoded.2 with
    | some e => st'.saveError e
    | none => st'
  | .null => { st with dest := { st.dest with Arguments := none } }
  | v => st.saveError (fieldTypeError v "arguments" "map[string]interface {}")

/-- One member of the params object: it is decoded into the field its key
selects, and skipped when it selects none. -/
def decodeMember (st : DecodeState) (kv : String × Json) : DecodeState :=
  if keyMatches kv.1 "name" then decodeName st kv.2
  else if keyMatches kv.1 "arguments" then decodeArguments st kv.2
  else st

/-- `json.Unmarshal` of a document into a `*CallToolRequestParams`: the
struct after the call and the error. The document is scanned first and
rejected when nested too deep. Then `null` changes nothing; an object is
decoded member by member and the first saved error is returned; any other
document is a type error. -/
def jsonUnmarshal (doc : Json) (dest : CallToolRequestParams) :
    CallToolRequestParams × Option String :=
  match doc.firstTooDeep maxNestingDepth with
  | some c =>
    (dest, some ("invalid character '" ++ String.singleton c ++ "' exceeded max depth"))
  | none =>
    match doc with
    | .null => (dest, none)
    | .object members =>
      let st := members.foldl decodeMember { dest := dest, savedError := none }
      (st.dest, st.savedError)
    | v =>
      (dest, some ("json: cannot unmarshal " ++ v.kind
        ++ " into Go value of type types.CallToolRequestParams"))

/-! ## The handlers of `examples/servers/simple-tool/main.go` -/

/-- `parseParams`: marshal the params to JSON and unmarshal the JSON into
`dest`. Returns `dest` after the call and the error (`none` for nil). -/
def parseParams (params : Value) (dest : CallToolRequestParams) :
    CallToolRequestParams × Option String :=
  match jsonMarshal params with
  | .error err => (dest, some ("failed to marshal params: " ++ err))
  | .ok paramsJSON =>
    match jsonUnmarshal paramsJSON dest with
    | (dest, some err) => (dest, some ("failed to unmarshal params: " ++ err))
    | (dest, none) => (dest, none)

/-- `handleListTools`: the two tool descriptors, whatever the params. -/
def handleListTools (_params : Value) : Option ListToolsResult × Option ErrorData :=
  let tools : List Tool := [
    { Name := "echo",
      Description := "Echoes back the input message",
      InputSchema := [
        ("type", .str "object"),
        ("properties", .map [
          ("message", .map [
            ("type", .str "string"),
            ("description", .str "The message to echo back")])]),
        ("required", .slice [.str "message"])] },
    { Name := "timestamp",
      Description := "Returns the current server timestamp",
      InputSchema := [
        ("type", .str "object"),
        ("properties", .map [])] }]
  (some { Tools := tools }, none)

/-- `handleCallTool`: parse the params, then dispatch on the tool name.
`now` is `time.Now().Format(time.RFC3339)` at the time of the call. -/
def handleCallTool (now : String) (params : Value) :
    Option CallToolResult × Option ErrorData :=
  match parseParams params {} with
  | (_, some err) =>
    (none, some { Code := INVALID_PARAMS, Message := "Invalid parameters: " ++ err })
  | (callParams, none) =>
    if callParams.Name = "echo" then
      match assertString (mapIndex callParams.Arguments "message") with
      | (_, false) =>
        (none, some { Code := INVALID_PARAMS,
                      Message := "Missing or invalid 'message' parameter" })
      | (message, true) =>
        (some { Result := [("message", .str message)] }, none)
    else if callParams.Name = "timestamp" then
      (some { Result := [("timestamp", .str now)] }, none)
    else
      (none, some { Code := METHOD_NOT_FOUND,
                    Message := "Tool not found: " ++ callParams.Name })

end SimpleTool

/-! ## The session layer -/

namespace Session

open SimpleTool

/-- Modelled from the spec: a Response envelope (section 3), which is not
under `src/`: the id of a prior Request and exactly one of a result payload
or an error. -/
structure Response where
  id : Nat
  body : Except ErrorData Value

/-- Modelled from the spec: a PendingRequest (section 3), which is not under
`src/`: the request id, the time of issue and the single-assignment
completion slot, empty until the request is resolved. -/
structure PendingRequest where
  id : Nat
  issuedAt : Nat
  completion : Option Response

/-- Modelled from the spec: the Pending-Request Table (section 4.2), keyed by
request id. Access to it is serialised (section 5), so a run of the session
is a sequence of the operations below. -/
abbrev PendingTable := List PendingRequest

/-- Modelled from the spec: `Register(id) -> completion slot` (section 4.2):
a new entry with an empty slot. -/
def Register (t : PendingTable) (id issuedAt : Nat) : PendingTable :=
  t ++ [{ id := id, issuedAt := issuedAt, completion := none }]

/-- Modelled from the spec: `Resolve(id, Response) -> bool` (section 4.2):
fills the slot of the entry with this id and returns true; returns false and
changes nothing when there is no such entry or it is already resolved (each
entry is write-once, the first resolution wins). -/
def Resolve : PendingTable → Nat → Response → PendingTable × Bool
  | [], _, _ => ([], false)
  | p :: rest, id, r =>
    if p.id = id then
      match p.completion with
      | none => ({ p with completion := some r } :: rest, true)
      | some _ => (p :: rest, false)
    else
      match Resolve rest id r with
      | (rest', found) => (p :: rest', found)

/-- Modelled from the spec: the Dispatcher's routing of an inbound Response
(section 4.4, step 3): `Resolve` against the table; an unmatched response is
discarded. -/
def dispatchResponse (t : PendingTable) (r : Response) : PendingTable :=
  (Resolve t r.id r).1

/-- Modelled from the spec: what the caller suspended in `Call` on request
`id` is woken with: the content of the completion slot of its entry. -/
def received (t : PendingTable) (id : Nat) : Option Response :=
  match t.find? (fun p => p.id == id) with
  | some p => p.completion
  | none => none

/-- Modelled from the spec: what happens on a session, as far as the table
is concerned: a caller issues a `Call` under an id (section 4.4, outbound
`Call`), or the read loop takes a Response frame off the transport. -/
inductive Event where
  | call (id issuedAt : Nat)
  | response (r : Response)

/-- Modelled from the spec: the effect of one event on the table: a `Call`
registers its id, an inbound Response is routed by the Dispatcher. -/
def step (t : PendingTable) : Event → PendingTable
  | .call id issuedAt => Register t id issuedAt
  | .response r => dispatchResponse t r

/-- Modelled from the spec: the table of a session, empty at the start, after
the events of a trace, taken in the order in which the serialised accesses to
the table happened. -/
def run (trace : List Event) : PendingTable :=
  trace.foldl step []

/-- The ids under which the Calls of a trace were issued, in order. -/
def issuedIds : List Event → List Nat
  | [] => []
  | .call id _ :: rest => id :: issuedIds rest
  | .response _ :: rest => issuedIds rest

/-- The Responses that arrived in a trace, in their order of arrival. -/
def arrived : List Event → List Response
  | [] => []
  | .call _ _ :: rest => arrived rest
  | .response r :: rest => r :: arrived rest

/-- Modelled from the spec: a Response has the id of a prior Request (section
3): every Response of the trace arrives after the `Call` with its id was
issued, `issued` being the ids issued before the trace. -/
def answersIssued : List Nat → List Event → Bool
  | _, [] => true
  | issued, .call id _ :: rest => answersIssued (id :: issued) rest
  | issued, .response r :: rest => issued.contains r.id && answersIssued issued rest

/-- Modelled from the spec: the zero value a nil result decodes to on the
caller's side. -/
instance : Inhabited CallToolResult := ⟨{ Result := [] }⟩

/-- Modelled from the spec: the zero value a nil result decodes to on the
caller's side. -/
instance : Inhabited ListToolsResult := ⟨{ Tools := [] }⟩

/-- Modelled from the spec: what `Call` returns for a request the peer's
handler answered with the pair `(result, err)`: the Response carries the
error when the handler returned one and the result otherwise, and `Call`
returns either the result or the typed error, never both (sections 4.4, 7).
A handler that returns neither sends a null result, read as the zero value;
the handlers of the example server never do. -/
def Call {α : Type} [Inhabited α] (handled : Option α × Option ErrorData) :
    Except ErrorData α :=
  match handled with
  | (_, some err) => .error err
  | (some result, none) => .ok result
  | (none, none) => .ok default

end Session

/-! ## The client of `clients/simple-client/main.go` -/

namespace SimpleClient

open SimpleTool

/-- Modelled from the spec: the result of `client.Initialize`, as far as
`main` reads it: the server's name and version and the protocol version. -/
structure InitializeResult where
  ServerInfoName : String
  ServerInfoVersion : String
  ProtocolVersion : String

/-- Modelled from the spec: the client handle returned by
`client.NewFastMCPClient`, whose code is in `pkg/mcp/client`: the three calls
`main` makes, each returning either a result or a typed error. -/
structure Client where
  Initialize : Except ErrorData InitializeResult
  ListTools : Except ErrorData ListToolsResult
  CallTool : String → List (String × Value) → Except ErrorData CallToolResult

/-- What `main` prints, one constructor for each `fmt.Printf` of `main`,
holding the arguments of the format. -/
inductive Printed where
  | connectedToServer (name version : String)
  | protocolVersion (version : String)
  | availableTools
  | toolLine (name description : String)
  | callingTool (name : String)
  | toolResult (result : List (String × Value))

/-- How `main` ends: it returns, or `log.Fatalf` ends the process with the
given format and error. -/
inductive Exit where
  | returned
  | fatal (format : String) (err : ErrorData)

/-- A run of `main`: what it printed, in order, and how it ended. -/
structure Run where
  stdout : List Printed
  exit : Exit

/-- The function `main` of the client, given the outcome of
`client.NewFastMCPClient`. -/
def main (newClient : Except ErrorData Client) : Run :=
  match newClient with
  | .error err => { stdout := [], exit := .fatal "Failed to create client: %v" err }
  | .ok client =>
    match client.Initialize with
    | .error err => { stdout := [], exit := .fatal "Failed to initialize client: %v" err }
    | .ok initResult =>
      let out : List Printed :=
        [.connectedToServer initResult.ServerInfoName initResult.ServerInfoVersion,
         .protocolVersion initResult.ProtocolVersion]
      match client.ListTools with
      | .error err => { stdout := out, exit := .fatal "Failed to list tools: %v" err }
      | .ok toolsResult =>
        let out := out ++ [.availableTools]
          ++ toolsResult.Tools.map (fun tool => .toolLine tool.Name tool.Description)
        match toolsResult.Tools with
        | [] => { stdout := out, exit := .returned }
        | tool :: _ =>
          let out := out ++ [.callingTool tool.Name]
          let arguments : List (String × Value) := []
          match client.CallTool tool.Name arguments with
          | .error err => { stdout := out, exit := .fatal "Failed to call tool: %v" err }
          | .ok result =>
            { stdout := out ++ [.toolResult result.Result], exit := .returned }

/-- Modelled from the spec: the params of a `tools/call` request as the
client library writes them, `{name: ..., arguments: ...}`; with `omitEmpty`
an empty arguments map is left out of the object, as a struct tag of
`CallToolRequestParams` may ask. -/
def callToolParams (omitEmpty : Bool) (name : String) (arguments : List (String × Value)) :
    Value :=
  if omitEmpty && arguments.isEmpty then .map [("name", .str name)]
  else .map [("name", .str name), ("arguments", .map arguments)]

/-- Modelled from the spec: a client whose session is connected to the
example server: `initialize` succeeds with the server's answer, `tools/list`
and `tools/call` are answered by the handlers the server registered for
them, and each `Call` returns what its handler produced. -/
def connectedClient (now : String) (init : InitializeResult) (listParams : Value)
    (omitEmpty : Bool) : Client :=
  { Initialize := .ok init
    ListTools := Session.Call (handleListTools listParams)
    CallTool := fun name arguments =>
      Session.Call (handleCallTool now (callToolParams omitEmpty name arguments)) }

end SimpleClient

namespace SimpleTool

/-! ## Facts about the encoder and the decoder -/

theorem keyMatches_name_name : keyMatches "name" "name" = true := by decide
theorem keyMatches_arguments_name : keyMatches "arguments" "name" = false := by decide
theorem keyMatches_arguments_arguments : keyMatches "arguments" "arguments" = true := by decide

theorem encodeMembers_eq_map (ms : List (String × Value)) :
    encodeMembers ms = ms.map (fun kv => (kv.1, encode kv.2)) := by
  induction ms with
  | nil => simp [encodeMembers]
  | cons kv rest ih => obtain ⟨k, v⟩ := kv; simp [encodeMembers, ih]

theorem sequenceMembers_ok (l : List (String × Except String Json)) (js : List (String × Json))
    (h : sequenceMembers l = .ok js) :
    l = js.map (fun kj => (kj.1, Except.ok kj.2)) := by
  induction l generalizing js with
  | nil => simp [sequenceMembers] at h; subst h; rfl
  | cons x rest ih =>
    obtain ⟨k, r⟩ := x
    cases r with
    | error e => simp [sequenceMembers] at h
    | ok j =>
      simp only [sequenceMembers] at h
      cases hs : sequenceMembers rest with
      | error e => simp [hs] at h
      | ok js' =>
        simp [hs] at h
        subst h
        simp [ih js' hs]

theorem decodeMembers_fst (ctx : String) (ms : List (String × Json)) :
    (decodeMembers ctx ms).1 = ms.map (fun kj => (kj.1, (decodeInterface ctx kj.2).1)) := by
  induction ms with
  | nil => simp [decodeMembers]
  | cons kj rest ih => obtain ⟨k, j⟩ := kj; simp [decodeMembers, ih]

theorem insertMember_perm {α : Type} (x : String × α) (l : List (String × α)) :
    (insertMember x l).Perm (x :: l) := by
  induction l with
  | nil => simp [insertMember]
  | cons y rest ih =>
    unfold insertMember
    split
    · exact (List.Perm.cons y ih).trans (List.Perm.swap x y rest)
    · exact List.Perm.refl _

theorem sortMembers_perm {α : Type} (l : List (String × α)) : (sortMembers l).Perm l := by
  induction l with
  | nil => simp [sortMembers]
  | cons x rest ih =>
    unfold sortMembers
    exact (insertMember_perm x _).trans (List.Perm.cons x ih)

theorem lastAssignments_filter_none {α : Type} (l : List (String × α)) (k : String)
    (h : ∀ kv ∈ l, kv.1 ≠ k) :
    (lastAssignments l).filter (fun kv => kv.1 == k) = [] := by
  induction l with
  | nil => simp [lastAssignments]
  | cons y rest ih =>
    have hy : y.1 ≠ k := h y (List.mem_cons_self _ _)
    have hrest : ∀ kv ∈ rest, kv.1 ≠ k := fun kv hkv => h kv (List.mem_cons_of_mem _ hkv)
    unfold lastAssignments
    split
    · exact ih hrest
    · simp [hy, ih hrest]

theorem lastAssignments_filter {α : Type} (before after : List (String × α)) (x : String × α)
    (h : ∀ kv ∈ after, kv.1 ≠ x.1) :
    (lastAssignments (before ++ x :: after)).filter (fun kv => kv.1 == x.1) = [x] := by
  induction before with
  | nil =>
    simp only [List.nil_append]
    unfold lastAssignments
    have hany : (after.any fun other => other.1 == x.1) = false := by
      rw [List.any_eq_false]
      intro kv hkv
      simpa using h kv hkv
    simp [hany, lastAssignments_filter_none after x.1 h]
  | cons y rest ih =>
    simp only [List.cons_append]
    unfold lastAssignments
    split
    · exact ih
    · rename_i hany
      by_cases hy : y.1 = x.1
      · exfalso
        apply hany
        rw [List.any_eq_true]
        exact ⟨x, by simp, by simp [hy]⟩
      · simp [hy, ih]

theorem binds_of_filter (l : List (String × Value)) (k : String) (v : Value)
    (h : l.filter (fun kv => kv.1 == k) = [(k, v)]) : Binds l k v := by
  obtain ⟨l₁, l₂, hl, -, -, h₂⟩ := List.filter_eq_cons_iff.mp h
  refine ⟨l₁, l₂, hl, ?_⟩
  intro kv hkv hk
  have := List.filter_eq_nil_iff.mp h₂ kv hkv
  simp [hk] at this

theorem mapIndex_of_binds (l : List (String × Value)) (k : String) (v : Value)
    (h : Binds l k v) : mapIndex (some l) k = v := by
  obtain ⟨before, after, hl, hafter⟩ := h
  have hnone : after.reverse.find? (fun kv => kv.1 == k) = none := by
    rw [List.find?_eq_none]
    intro kv hkv
    simpa using hafter kv (List.mem_reverse.mp hkv)
  simp [mapIndex, hl, List.find?_append, hnone]

theorem binds_of_mapIndex_str (l : List (String × Value)) (k s : String)
    (h : mapIndex (some l) k = .str s) : Binds l k (.str s) := by
  unfold mapIndex at h
  simp only at h
  cases hf : l.reverse.find? (fun kv => kv.1 == k) with
  | none => simp [hf] at h
  | some kv =>
    simp [hf] at h
    obtain ⟨hp, as, bs, hrev, has⟩ := List.find?_eq_some.mp hf
    have hl : l = bs.reverse ++ kv :: as.reverse := by
      have := congrArg List.reverse hrev
      simpa using this
    have hk : kv.1 = k := by simpa using hp
    refine ⟨bs.reverse, as.reverse, ?_, ?_⟩
    · rw [hl]; congr 2; exact Prod.ext hk h
    · intro x hx
      have := has x (List.mem_reverse.mp hx)
      simpa using this

/-- The document of the params `{name: ..., arguments: ...}`, in either order
of the two assignments: `arguments` is written before `name`. -/
theorem encode_call_params (name : String) (args top : List (String × Value))
    (htop : top = [("name", .str name), ("arguments", .map args)] ∨
      top = [("arguments", .map args), ("name", .str name)]) :
    encode (.map top) =
      match sequenceMembers (sortMembers (lastAssignments (encodeMembers args))) with
      | .error err => .error err
      | .ok js => .ok (.object [("arguments", .object js), ("name", .str name)]) := by
  have hless : keyLess "arguments".data "name".data = true := by decide
  have hless2 : keyLess "name".data "arguments".data = false := by decide
  rcases htop with rfl | rfl
  · simp only [encode, encodeMembers, lastAssignments, sortMembers, insertMember]
    cases hs : sequenceMembers (sortMembers (lastAssignments (encodeMembers args))) <;>
      simp [hless, hless2, sequenceMembers]
  · simp only [encode, encodeMembers, lastAssignments, sortMembers, insertMember]
    cases hs : sequenceMembers (sortMembers (lastAssignments (encodeMembers args))) <;>
      simp [hless, hless2, sequenceMembers]

/-- What `parseParams` stores for the params `{name: ..., arguments: ...}`
when it accepts them: the name, and the decoded entries of the arguments. -/
theorem parseParams_call_params (name : String) (args top : List (String × Value))
    (htop : top = [("name", .str name), ("arguments", .map args)] ∨
      top = [("arguments", .map args), ("name", .str name)])
    (haccept : (parseParams (.map top) {}).2 = none) :
    ∃ js, sequenceMembers (sortMembers (lastAssignments (encodeMembers args))) = .ok js ∧
      parseParams (.map top) {} =
        ({ Name := name,
           Arguments := some
             (decodeMembers "struct field CallToolRequestParams.arguments" js).1 }, none) := by
  have henc := encode_call_params name args top htop
  unfold parseParams jsonMarshal at haccept ⊢
  rw [henc] at haccept ⊢
  cases hs : sequenceMembers (sortMembers (lastAssignments (encodeMembers args))) with
  | error err => simp [hs] at haccept
  | ok js =>
    refine ⟨js, rfl, ?_⟩
    simp only [hs] at haccept ⊢
    unfold jsonUnmarshal at haccept ⊢
    cases hd : (Json.object [("arguments", .object js), ("name", .str name)]).firstTooDeep
        maxNestingDepth with
    | some c => simp [hd] at haccept
    | none =>
      simp only [hd, List.foldl_cons, List.foldl_nil, decodeMember, keyMatches_arguments_name,
        keyMatches_arguments_arguments, keyMatches_name_name, decodeArguments] at haccept ⊢
      cases he : (decodeMembers "struct field CallToolRequestParams.arguments" js).2 with
      | some e => simp [he, DecodeState.saveError, decodeName] at haccept
      | none => simp [he, decodeName]

/-- A string bound by the arguments of the params is bound, unchanged, by the
decoded arguments. -/
theorem decoded_binds_str (ctx : String) (args : List (String × Value))
    (js : List (String × Json)) (k m : String)
    (hs : sequenceMembers (sortMembers (lastAssignments (encodeMembers args))) = .ok js)
    (hmsg : Binds args k (.str m)) :
    Binds (decodeMembers ctx js).1 k (.str m) := by
  obtain ⟨before, after, rfl, hafter⟩ := hmsg
  have hE : encodeMembers (before ++ (k, Value.str m) :: after) =
      before.map (fun kv => (kv.1, encode kv.2)) ++
        (k, Except.ok (Json.str m)) :: after.map (fun kv => (kv.1, encode kv.2)) := by
    simp [encodeMembers_eq_map, encode]
  have hD : (lastAssignments (encodeMembers (before ++ (k, Value.str m) :: after))).filter
      (fun kv => kv.1 == k) = [(k, Except.ok (Json.str m))] := by
    rw [hE]
    apply lastAssignments_filter _ _ (k, Except.ok (Json.str m))
    intro kv hkv
    obtain ⟨x, hx, rfl⟩ := List.mem_map.mp hkv
    exact hafter x hx
  have hS : (sortMembers (lastAssignments
      (encodeMembers (before ++ (k, Value.str m) :: after)))).filter (fun kv => kv.1 == k) =
      [(k, Except.ok (Json.str m))] := by
    have hperm := (sortMembers_perm (lastAssignments
      (encodeMembers (before ++ (k, Value.str m) :: after)))).filter (fun kv => kv.1 == k)
    rw [hD] at hperm
    exact List.perm_singleton.mp hperm
  rw [sequenceMembers_ok _ js hs, List.filter_map] at hS
  have hjs : js.filter (fun kj => kj.1 == k) = [(k, Json.str m)] := by
    cases hf : js.filter (fun kj => kj.1 == k) with
    | nil =>
      have : js.filter ((fun kv : String × Except String Json => kv.1 == k) ∘
          fun kj : String × Json => (kj.1, Except.ok kj.2)) = [] := hf
      rw [this] at hS
      simp at hS
    | cons a rest =>
      have : js.filter ((fun kv : String × Except String Json => kv.1 == k) ∘
          fun kj : String × Json => (kj.1, Except.ok kj.2)) = a :: rest := hf
      rw [this] at hS
      simp only [List.map_cons, List.cons.injEq, Prod.mk.injEq, Except.ok.injEq,
        List.map_eq_nil_iff] at hS
      obtain ⟨⟨h1, h2⟩, h3⟩ := hS
      rw [h3]
      congr 1
      exact Prod.ext h1 h2
  apply binds_of_filter
  rw [decodeMembers_fst, List.filter_map]
  have : js.filter ((fun kv : String × Value => kv.1 == k) ∘
      fun kj : String × Json => (kj.1, (decodeInterface ctx kj.2).1)) = [(k, Json.str m)] := hjs
  rw [this]
  simp [decodeInterface]

/-- With a parse error the handler answers INVALID_PARAMS. -/
theorem handleCallTool_of_parse_error (now : String) (params : Value) (e : String)
    (h : (parseParams params {}).2 = some e) :
    handleCallTool now params =
      (none, some { Code := INVALID_PARAMS, Message := "Invalid parameters: " ++ e }) := by
  unfold handleCallTool
  split
  · rename_i err heq
    rw [heq] at h
    simp at h
    subst h
    rfl
  · rename_i heq
    rw [heq] at h
    simp at h

/-- With parsed params the handler is the switch on the tool name. -/
theorem handleCallTool_of_parsed (now : String) (params : Value) (cp : CallToolRequestParams)
    (h : parseParams params {} = (cp, none)) :
    handleCallTool now params =
      if cp.Name = "echo" then
        match assertString (mapIndex cp.Arguments "message") with
        | (_, false) =>
          (none, some { Code := INVALID_PARAMS,
                        Message := "Missing or invalid 'message' parameter" })
        | (message, true) =>
          (some { Result := [("message", .str message)] }, none)
      else if cp.Name = "timestamp" then
        (some { Result := [("timestamp", .str now)] }, none)
      else
        (none, some { Code := METHOD_NOT_FOUND,
                      Message := "Tool not found: " ++ cp.Name }) := by
  unfold handleCallTool
  rw [h]

/-- The error of `parseParams` is one of its two wrapped errors. -/
theorem parseParams_error_shape (params : Value) (dest : CallToolRequestParams) (e : String)
    (h : (parseParams params dest).2 = some e) :
    ∃ inner, e = "failed to marshal params: " ++ inner ∨
      e = "failed to unmarshal params: " ++ inner := by
  unfold parseParams at h
  split at h
  · rename_i err _
    exact ⟨err, Or.inl (by simpa using h.symm)⟩
  · split at h
    · rename_i err _
      exact ⟨err, Or.inr (by simpa using h.symm)⟩
    · simp at h

theorem encode_nestSlices (n : Nat) :
    encode (nestSlices n .null) = .ok (nestArrays n .null) := by
  induction n with
  | zero => simp [nestSlices, nestArrays, encode]
  | succ n ih => simp [nestSlices, nestArrays, encode, encodeElems, ih]

theorem firstTooDeep_nestArrays (n budget : Nat) :
    (nestArrays n .null).firstTooDeep budget = if budget < n then some '[' else none := by
  induction n generalizing budget with
  | zero => cases budget <;> simp [nestArrays, Json.firstTooDeep]
  | succ n ih =>
    cases budget with
    | zero => simp [nestArrays, Json.firstTooDeep]
    | succ b =>
      simp only [nestArrays, Json.firstTooDeep, firstTooDeepElems, ih]
      by_cases hb : b < n <;> simp [hb]

theorem decodeInterface_nestArrays (ctx : String) (n : Nat) :
    (decodeInterface ctx (nestArrays n .null)).2 = none := by
  induction n with
  | zero => simp [nestArrays, decodeInterface]
  | succ n ih => simp [nestArrays, decodeInterface, decodeElems, ih, firstError]

/-- Params whose arguments hold a value under `n` nested slices make a
document of depth `n + 2`: `parseParams` rejects it when that exceeds 10000
and accepts it otherwise. -/
theorem parseParams_nesting (n : Nat) :
    (parseParams (.map [("name", .str "nope"),
        ("arguments", .map [("deep", nestSlices n .null)])]) {}).2 =
      if 9998 < n then
        some ("failed to unmarshal params: " ++ "invalid character '[' exceeded max depth")
      else none := by
  unfold parseParams jsonMarshal
  rw [encode_call_params "nope" _ _ (Or.inl rfl)]
  simp only [encodeMembers, encode_nestSlices, lastAssignments, sortMembers, insertMember,
    sequenceMembers, List.any_nil, Bool.false_eq_true, if_false]
  unfold jsonUnmarshal
  simp only [maxNestingDepth, Json.firstTooDeep, firstTooDeepMembers, firstTooDeep_nestArrays]
  by_cases hn : 9998 < n
  · simp [hn]
    rfl
  · simp [hn, decodeMember, keyMatches_arguments_name,
      keyMatches_arguments_arguments, keyMatches_name_name, decodeArguments, decodeName,
      decodeMembers, decodeInterface_nestArrays, firstError]

/-! ## The claims about the handlers -/

/-- C1, amended. For every string `m` of valid UTF-8 and every arguments map
that binds `"message"` to `m`, whatever else it binds: when `parseParams`
accepts the params `{name: "echo", arguments: ...}`, `handleCallTool` returns
a nil error and the result whose payload is exactly the one-entry map
`{"message": m}`. -/
theorem handleCallTool_echo (now m : String) (args top : List (String × Value))
    (htop : top = [("name", .str "echo"), ("arguments", .map args)] ∨
      top = [("arguments", .map args), ("name", .str "echo")])
    (hmsg : Binds args "message" (.str m))
    (haccept : (parseParams (.map top) {}).2 = none) :
    handleCallTool now (.map top) =
      (some { Result := [("message", .str m)] }, none) := by
  obtain ⟨js, hs, hparse⟩ := parseParams_call_params "echo" args top htop haccept
  rw [handleCallTool_of_parsed now _ _ hparse]
  have hbinds := decoded_binds_str "struct field CallToolRequestParams.arguments"
    args js "message" m hs hmsg
  simp [mapIndex_of_binds _ _ _ hbinds, assertString]

theorem handleCallTool_echo_witness :
    Binds [("zeta", .slice [.null]), ("message", .str "hi"), ("count", .number (.float64 0))]
      "message" (.str "hi") ∧
    (parseParams (.map [("name", .str "echo"), ("arguments",
      .map [("zeta", .slice [.null]), ("message", .str "hi"),
            ("count", .number (.float64 0))])]) {}).2 = none ∧
    handleCallTool "2024-01-01T00:00:00Z"
        (.map [("name", .str "echo"), ("arguments",
          .map [("zeta", .slice [.null]), ("message", .str "hi"),
                ("count", .number (.float64 0))])]) =
      (some { Result := [("message", .str "hi")] }, none) :=
  ⟨⟨[("zeta", .slice [.null])], [("count", .number (.float64 0))], rfl, by simp⟩, rfl,
    handleCallTool_echo "2024-01-01T00:00:00Z" "hi"
      [("zeta", .slice [.null]), ("message", .str "hi"), ("count", .number (.float64 0))]
      [("name", .str "echo"), ("arguments",
          .map [("zeta", .slice [.null]), ("message", .str "hi"),
                ("count", .number (.float64 0))])]
      (Or.inl rfl)
      ⟨[("zeta", .slice [.null])], [("count", .number (.float64 0))], rfl, by simp⟩ rfl⟩

/-- C1, counterexample. With a NaN among the other arguments the params
`{name: "echo", arguments: {message: "hi", n: NaN}}` are answered with a nil
result and an INVALID_PARAMS error, not with `{message: "hi"}`; and a message
that is not valid UTF-8 (the byte 0xFF) is not echoed as it is: U+FFFD comes
back. -/
theorem handleCallTool_echo_counterexample :
    handleCallTool "2024-01-01T00:00:00Z"
        (.map [("name", .str "echo"), ("arguments",
          .map [("message", .str "hi"), ("n", .number (.float64 0x7FF8000000000000))])]) =
      (none, some { Code := INVALID_PARAMS,
                    Message := "Invalid parameters: failed to marshal params: "
                      ++ "json: unsupported value: NaN" }) ∧
    handleCallTool "2024-01-01T00:00:00Z"
        (.map [("name", .str "echo"), ("arguments",
          .map [("message", .str "hi"), ("n", .number (.float64 0x7FF8000000000000))])]) ≠
      (some { Result := [("message", .str "hi")] }, none) ∧
    handleCallTool "2024-01-01T00:00:00Z"
        (.map [("name", .str "echo"), ("arguments", .map [("message", .bytes [0xFF])])]) =
      (some { Result := [("message", .str (String.singleton (Char.ofNat 0xFFFD)))] }, none) ∧
    handleCallTool "2024-01-01T00:00:00Z"
        (.map [("name", .str "echo"), ("arguments", .map [("message", .bytes [0xFF])])]) ≠
      (some { Result := [("message", .bytes [0xFF])] }, none) := by
  have hnan : handleCallTool "2024-01-01T00:00:00Z"
      (.map [("name", .str "echo"), ("arguments",
        .map [("message", .str "hi"), ("n", .number (.float64 0x7FF8000000000000))])]) =
      (none, some { Code := INVALID_PARAMS,
                    Message := "Invalid parameters: failed to marshal params: "
                      ++ "json: unsupported value: NaN" }) := rfl
  have hbytes : handleCallTool "2024-01-01T00:00:00Z"
      (.map [("name", .str "echo"), ("arguments", .map [("message", .bytes [0xFF])])]) =
      (some { Result := [("message", .str (String.singleton (Char.ofNat 0xFFFD)))] }, none) :=
    rfl
  refine ⟨hnan, ?_, hbytes, ?_⟩
  · rw [hnan]; simp
  · rw [hbytes]; simp

/-- C2. For every params that parse and whose tool name is neither `"echo"`
nor `"timestamp"`, `handleCallTool` returns a nil result and an error with
code METHOD_NOT_FOUND and message `"Tool not found: "` followed by the name;
null params parse to the empty name and are such a case. Params with an
unknown name that do not parse (an argument out of the range of `float64`, a
document nested deeper than 10000 levels) are not such a case: they are
answered INVALID_PARAMS by the parse guard. -/
theorem handleCallTool_unknown_tool (now : String) (params : Value)
    (cp : CallToolRequestParams)
    (hparse : parseParams params {} = (cp, none))
    (hecho : cp.Name ≠ "echo") (htime : cp.Name ≠ "timestamp") :
    handleCallTool now params =
        (none, some { Code := METHOD_NOT_FOUND, Message := "Tool not found: " ++ cp.Name }) ∧
      handleCallTool now .null =
        (none, some { Code := METHOD_NOT_FOUND, Message := "Tool not found: " }) ∧
      handleCallTool now (.map [("name", .str "nope"),
          ("arguments", .map [("n", .number (.jsonNumber "1e400"))])]) =
        (none, some { Code := INVALID_PARAMS,
                      Message := "Invalid parameters: failed to unmarshal params: "
                        ++ "json: cannot unmarshal number 1e400 into Go struct field "
                        ++ "CallToolRequestParams.arguments of type float64" }) ∧
      handleCallTool now (.map [("name", .str "nope"),
          ("arguments", .map [("deep", nestSlices 9999 .null)])]) =
        (none, some { Code := INVALID_PARAMS,
                      Message := "Invalid parameters: failed to unmarshal params: "
                        ++ "invalid character '[' exceeded max depth" }) := by
  refine ⟨?_, rfl, rfl, ?_⟩
  · rw [handleCallTool_of_parsed now params cp hparse]
    simp [hecho, htime]
  · exact handleCallTool_of_parse_error now _ _
      ((parseParams_nesting 9999).trans (if_pos (by decide)))

theorem handleCallTool_unknown_tool_witness :
    parseParams (.map [("name", .str "nope"), ("arguments", .map [])]) {} =
      ({ Name := "nope", Arguments := some [] }, none) ∧
    "nope" ≠ "echo" ∧ "nope" ≠ "timestamp" ∧
    handleCallTool "2024-01-01T00:00:00Z" (.map [("name", .str "nope"), ("arguments", .map [])]) =
      (none, some { Code := METHOD_NOT_FOUND, Message := "Tool not found: " ++ "nope" }) :=
  ⟨rfl, by decide, by decide,
    (handleCallTool_unknown_tool "2024-01-01T00:00:00Z"
      (.map [("name", .str "nope"), ("arguments", .map [])])
      { Name := "nope", Arguments := some [] } rfl (by decide) (by decide)).1⟩

/-- C3. For every params value `handleListTools` returns a nil error and a
result with exactly two tool descriptors, named `"echo"` and `"timestamp"` in
that order, each with a non-empty description and an input schema whose
`"type"` is `"object"`; the result is the same for all params. -/
theorem handleListTools_two_tools (params : Value) :
    ∃ r : ListToolsResult,
      handleListTools params = (some r, none) ∧
      r.Tools.length = 2 ∧
      r.Tools.map (fun t => t.Name) = ["echo", "timestamp"] ∧
      (∀ t ∈ r.Tools, t.Description ≠ "" ∧
        mapIndex (some t.InputSchema) "type" = .str "object") ∧
      ∀ other : Value, handleListTools other = handleListTools params := by
  refine ⟨_, rfl, rfl, rfl, ?_, fun _ => rfl⟩
  intro t ht
  simp at ht
  rcases ht with rfl | rfl
  · exact ⟨by decide, rfl⟩
  · exact ⟨by decide, rfl⟩

/-- C4. For every params value `handleCallTool` returns either a result or an
error, never both and never neither: the result is non-nil exactly when the
error is nil. Params without an arguments field leave the arguments map nil,
and indexing it yields the INVALID_PARAMS error rather than a failure. -/
theorem handleCallTool_result_xor_error (now : String) (params : Value) :
    (((handleCallTool now params).1.isSome = true ↔ (handleCallTool now params).2 = none) ∧
      ((handleCallTool now params).1 = none ↔ (handleCallTool now params).2.isSome = true)) ∧
    (parseParams (.map [("name", .str "echo")]) {} = ({ Name := "echo", Arguments := none }, none) ∧
      handleCallTool now (.map [("name", .str "echo")]) =
        (none, some { Code := INVALID_PARAMS,
                      Message := "Missing or invalid 'message' parameter" })) := by
  refine ⟨?_, rfl, rfl⟩
  unfold handleCallTool
  split
  · simp
  · split
    · split <;> simp
    · split <;> simp

/-- C5. Every error of the example server's handlers carries a code of the
closed taxonomy: an error returned by `handleCallTool` has code
INVALID_PARAMS or METHOD_NOT_FOUND, both of which belong to the taxonomy,
and `handleListTools` never returns an error. -/
theorem handler_error_codes (now : String) (params : Value) (e : ErrorData)
    (h : (handleCallTool now params).2 = some e) :
    (e.Code = INVALID_PARAMS ∨ e.Code = METHOD_NOT_FOUND) ∧
    e.Code ∈ errorTaxonomy ∧
    ∀ p : Value, (handleListTools p).2 = none := by
  have hcode : e.Code = INVALID_PARAMS ∨ e.Code = METHOD_NOT_FOUND := by
    unfold handleCallTool at h
    split at h
    · simp at h; subst h; exact Or.inl rfl
    · split at h
      · split at h
        · simp at h; subst h; exact Or.inl rfl
        · simp at h
      · split at h
        · simp at h
        · simp at h; subst h; exact Or.inr rfl
  refine ⟨hcode, ?_, fun _ => rfl⟩
  rcases hcode with hc | hc <;> rw [hc] <;> decide

theorem handler_error_codes_witness :
    (handleCallTool "2024-01-01T00:00:00Z" (.slice [])).2 =
      some { Code := INVALID_PARAMS,
             Message := "Invalid parameters: failed to unmarshal params: "
               ++ "json: cannot unmarshal array into Go value of type types.CallToolRequestParams" } ∧
    ((INVALID_PARAMS = INVALID_PARAMS ∨ INVALID_PARAMS = METHOD_NOT_FOUND) ∧
      INVALID_PARAMS ∈ errorTaxonomy ∧
      ∀ p : Value, (handleListTools p).2 = none) :=
  ⟨rfl, handler_error_codes "2024-01-01T00:00:00Z" (.slice [])
    { Code := INVALID_PARAMS,
      Message := "Invalid parameters: failed to unmarshal params: "
        ++ "json: cannot unmarshal array into Go value of type types.CallToolRequestParams" } rfl⟩

theorem mapIndex_str_iff (m : Option (List (String × Value))) (k : String) :
    (∃ s, mapIndex m k = .str s) ↔
      ∃ args s, m = some args ∧ Binds args k (.str s) := by
  constructor
  · rintro ⟨s, hs⟩
    cases m with
    | none => simp [mapIndex] at hs
    | some args => exact ⟨args, s, rfl, binds_of_mapIndex_str args k s hs⟩
  · rintro ⟨args, s, rfl, hb⟩
    exact ⟨s, mapIndex_of_binds args k _ hb⟩

/-- C7, amended. The echo tool enforces its advertised schema, which
declares `"message"` a required string, on the params `parseParams` accepts:
for every such params with name `"echo"`, `handleCallTool` returns a result,
namely `{"message": s}`, if and only if the arguments bind `"message"` to a
string `s`, and otherwise (key missing, arguments absent, value not a string)
returns a nil result and the INVALID_PARAMS error
`"Missing or invalid 'message' parameter"`. -/
theorem handleCallTool_echo_enforces_schema (now : String) (params : Value)
    (cp : CallToolRequestParams)
    (hparse : parseParams params {} = (cp, none)) (hname : cp.Name = "echo") :
    ((∃ r, (handleCallTool now params).1 = some r) ↔
        ∃ args s, cp.Arguments = some args ∧ Binds args "message" (.str s)) ∧
    (∀ args s, cp.Arguments = some args → Binds args "message" (.str s) →
        handleCallTool now params = (some { Result := [("message", .str s)] }, none)) ∧
    ((¬ ∃ args s, cp.Arguments = some args ∧ Binds args "message" (.str s)) →
        handleCallTool now params =
          (none, some { Code := INVALID_PARAMS,
                        Message := "Missing or invalid 'message' parameter" })) ∧
    (∃ (r : ListToolsResult) (echo : Tool) (rest : List Tool),
        handleListTools params = (some r, none) ∧ r.Tools = echo :: rest ∧
        echo.Name = "echo" ∧
        Binds echo.InputSchema "required" (.slice [.str "message"]) ∧
        Binds echo.InputSchema "properties"
          (.map [("message", .map [("type", .str "string"),
                                   ("description", .str "The message to echo back")])])) := by
  have hcall := handleCallTool_of_parsed now params cp hparse
  rw [if_pos hname] at hcall
  rw [← mapIndex_str_iff]
  refine ⟨?_, ?_, ?_, ⟨_, _, _, rfl, rfl, rfl, ?_, ?_⟩⟩
  · rw [hcall]
    cases hv : mapIndex cp.Arguments "message" <;> simp [assertString]
  · intro args s hargs hb
    rw [hcall, hargs, mapIndex_of_binds args "message" _ hb]
    simp [assertString]
  · intro hno
    rw [hcall]
    cases hv : mapIndex cp.Arguments "message" <;> simp [assertString]
    exact hno ⟨_, hv⟩
  · exact ⟨[("type", .str "object"), ("properties", .map [
      ("message", .map [("type", .str "string"),
        ("description", .str "The message to echo back")])])], [], rfl, by simp⟩
  · exact ⟨[("type", .str "object")], [("required", .slice [.str "message"])], rfl, by simp⟩

theorem handleCallTool_echo_enforces_schema_witness :
    parseParams (.map [("name", .str "echo"),
        ("arguments", .map [("message", .number (.float64 5)), ("other", .str "x")])]) {}
      = ({ Name := "echo",
           Arguments := some [("message", .number (.float64 5)), ("other", .str "x")] }, none) ∧
    (¬ ∃ args s, some [("message", Value.number (.float64 5)), ("other", Value.str "x")] =
        some args ∧ Binds args "message" (.str s)) ∧
    handleCallTool "2024-01-01T00:00:00Z"
        (.map [("name", .str "echo"),
          ("arguments", .map [("message", .number (.float64 5)), ("other", .str "x")])]) =
      (none, some { Code := INVALID_PARAMS,
                    Message := "Missing or invalid 'message' parameter" }) := by
  have hno : ¬ ∃ args s, some [("message", Value.number (.float64 5)), ("other", Value.str "x")]
      = some args ∧ Binds args "message" (.str s) := by
    rintro ⟨args, s, hargs, hb⟩
    have := mapIndex_of_binds args "message" _ hb
    rw [← Option.some.inj hargs] at this
    simp [mapIndex] at this
  exact ⟨rfl, hno,
    (handleCallTool_echo_enforces_schema "2024-01-01T00:00:00Z"
      (.map [("name", .str "echo"),
        ("arguments", .map [("message", .number (.float64 5)), ("other", .str "x")])])
      { Name := "echo",
        Arguments := some [("message", .number (.float64 5)), ("other", .str "x")] }
      rfl rfl).2.2.1 hno⟩

/-- C7, counterexample. The params `{name: "echo", arguments: "x"}` have the
name `"echo"` and no string under `"message"`, yet the error they are
answered with is not `"Missing or invalid 'message' parameter"`: the
arguments are not an object, `parseParams` fails, and the message is
`"Invalid parameters: ..."`. The same holds when `"message"` is bound to a
number out of the range of `float64`. -/
theorem handleCallTool_echo_enforces_schema_counterexample :
    handleCallTool "2024-01-01T00:00:00Z"
        (.map [("name", .str "echo"), ("arguments", .str "x")]) =
      (none, some { Code := INVALID_PARAMS,
                    Message := "Invalid parameters: failed to unmarshal params: "
                      ++ "json: cannot unmarshal string into Go struct field "
                      ++ "CallToolRequestParams.arguments of type map[string]interface {}" }) ∧
    handleCallTool "2024-01-01T00:00:00Z"
        (.map [("name", .str "echo"),
          ("arguments", .map [("message", .number (.jsonNumber "1e400"))])]) =
      (none, some { Code := INVALID_PARAMS,
                    Message := "Invalid parameters: failed to unmarshal params: "
                      ++ "json: cannot unmarshal number 1e400 into Go struct field "
                      ++ "CallToolRequestParams.arguments of type float64" }) ∧
    handleCallTool "2024-01-01T00:00:00Z"
        (.map [("name", .str "echo"), ("arguments", .str "x")]) ≠
      (none, some { Code := INVALID_PARAMS,
                    Message := "Missing or invalid 'message' parameter" }) := by
  have h : handleCallTool "2024-01-01T00:00:00Z"
      (.map [("name", .str "echo"), ("arguments", .str "x")]) =
      (none, some { Code := INVALID_PARAMS,
                    Message := "Invalid parameters: failed to unmarshal params: "
                      ++ "json: cannot unmarshal string into Go struct field "
                      ++ "CallToolRequestParams.arguments of type map[string]interface {}" }) :=
    rfl
  refine ⟨h, rfl, ?_⟩
  rw [h]
  simp

/-- C8. Whenever `parseParams` fails on the params, its error starts with
`"failed to marshal params: "` or `"failed to unmarshal params: "`, and
`handleCallTool` returns a nil result and an INVALID_PARAMS error whose
message is `"Invalid parameters: "` followed by that error, whatever the tool
name and the clock. A value of a type without a JSON encoding and a NaN fail
the marshal step; a non-string name, a non-object arguments field, a number
out of the range of `float64` and a document nested deeper than 10000 levels
fail the unmarshal step, the first error in the order of the document being
the one reported. -/
theorem handleCallTool_parse_failure (now : String) (params : Value) (e : String)
    (h : (parseParams params {}).2 = some e) :
    (∃ inner, e = "failed to marshal params: " ++ inner ∨
        e = "failed to unmarshal params: " ++ inner) ∧
    handleCallTool now params =
      (none, some { Code := INVALID_PARAMS, Message := "Invalid parameters: " ++ e }) ∧
    (∀ typ : String, (parseParams (.unsupported typ) {}).2 =
        some ("failed to marshal params: " ++ ("json: unsupported type: " ++ typ))) ∧
    (parseParams (.map [("name", .str "echo"),
        ("arguments", .map [("n", .number (.float64 0x7FF8000000000000))])]) {}).2 =
      some ("failed to marshal params: " ++ "json: unsupported value: NaN") ∧
    (∀ b : Bool, ∃ inner, (parseParams (.map [("name", .bool b)]) {}).2 =
        some ("failed to unmarshal params: " ++ inner)) ∧
    (∀ s : String, ∃ inner,
        (parseParams (.map [("name", .str "echo"), ("arguments", .str s)]) {}).2 =
          some ("failed to unmarshal params: " ++ inner)) ∧
    (parseParams (.map [("name", .bool true),
        ("arguments", .map [("n", .number (.jsonNumber "1e400"))])]) {}).2 =
      some ("failed to unmarshal params: " ++ "json: cannot unmarshal number 1e400 into Go "
        ++ "struct field CallToolRequestParams.arguments of type float64") ∧
    (∀ n : Nat, (parseParams (.map [("name", .str "nope"),
        ("arguments", .map [("deep", nestSlices n .null)])]) {}).2 =
      if 9998 < n then
        some ("failed to unmarshal params: " ++ "invalid character '[' exceeded max depth")
      else none) :=
  ⟨parseParams_error_shape params {} e h, handleCallTool_of_parse_error now params e h,
    fun _ => rfl, rfl, fun _ => ⟨_, rfl⟩, fun _ => ⟨_, rfl⟩, rfl, parseParams_nesting⟩

theorem handleCallTool_parse_failure_witness :
    (parseParams (.map [("name", .slice [.str "echo"])]) {}).2 =
      some ("failed to unmarshal params: " ++
        fieldTypeError (.array [.str "echo"]) "name" "string") ∧
    handleCallTool "2024-01-01T00:00:00Z" (.map [("name", .slice [.str "echo"])]) =
      (none, some { Code := INVALID_PARAMS,
                    Message := "Invalid parameters: " ++
                      ("failed to unmarshal params: " ++
                        fieldTypeError (.array [.str "echo"]) "name" "string") }) :=
  ⟨rfl, (handleCallTool_parse_failure "2024-01-01T00:00:00Z"
    (.map [("name", .slice [.str "echo"])])
    ("failed to unmarshal params: " ++ fieldTypeError (.array [.str "echo"]) "name" "string")
    rfl).2.1⟩

end SimpleTool

namespace Session

open SimpleTool

/-! ## Correlation of responses -/

theorem received_register (t : PendingTable) (id issuedAt k : Nat) :
    received (Register t id issuedAt) k = received t k := by
  unfold received Register
  rw [List.find?_append]
  cases h : t.find? (fun p => p.id == k) with
  | some p => simp
  | none =>
    by_cases hk : id = k
    · simp [hk]
    · simp [hk]

theorem find_resolve (t : PendingTable) (id : Nat) (r : Response) (k : Nat) :
    (Resolve t id r).1.find? (fun p => p.id == k) =
      if k = id then
        (t.find? (fun p => p.id == k)).map fun p =>
          match p.completion with
          | none => { p with completion := some r }
          | some _ => p
      else t.find? (fun p => p.id == k) := by
  induction t with
  | nil => simp [Resolve]
  | cons p rest ih =>
    unfold Resolve
    by_cases hp : p.id = id
    · rw [if_pos hp]
      by_cases hk : k = id
      · subst hk
        cases hc : p.completion <;> simp [hp, hc]
      · have hpk : ¬ p.id = k := fun h => hk (h ▸ hp)
        cases hc : p.completion <;> simp [hk, hpk]
    · rw [if_neg hp]
      by_cases hpk : p.id = k
      · have hk : ¬ k = id := fun h => hp (hpk.trans h)
        simp [hpk, hk]
      · simp [hpk, ih]

theorem ids_resolve (t : PendingTable) (id : Nat) (r : Response) :
    (Resolve t id r).1.map (fun p => p.id) = t.map (fun p => p.id) := by
  induction t with
  | nil => simp [Resolve]
  | cons p rest ih =>
    unfold Resolve
    by_cases hp : p.id = id
    · rw [if_pos hp]
      cases hc : p.completion <;> simp
    · rw [if_neg hp]
      simpa using ih

theorem received_dispatch (t : PendingTable) (r : Response) (k : Nat)
    (hreg : r.id ∈ t.map (fun p => p.id)) :
    received (dispatchResponse t r) k =
      match received t k with
      | some c => some c
      | none => if r.id = k then some r else none := by
  unfold dispatchResponse received
  rw [find_resolve]
  by_cases hk : k = r.id
  · subst hk
    cases hf : t.find? (fun p => p.id == r.id) with
    | none =>
      obtain ⟨p, hp, hpid⟩ := List.mem_map.mp hreg
      have := List.find?_eq_none.mp hf p hp
      simp [hpid] at this
    | some p => cases hc : p.completion <;> simp [hc]
  · have hk2 : ¬ r.id = k := fun h => hk h.symm
    simp only [if_neg hk, if_neg hk2]
    cases hf : t.find? (fun p => p.id == k) with
    | none => rfl
    | some p => cases hc : p.completion <;> simp [hc]

theorem ids_step (t : PendingTable) (e : Event) :
    (step t e).map (fun p => p.id) = t.map (fun p => p.id) ++ issuedIds [e] := by
  cases e with
  | call id issuedAt => simp [step, Register, issuedIds]
  | response r => simp [step, dispatchResponse, ids_resolve, issuedIds]

theorem issuedIds_cons (e : Event) (rest : List Event) :
    issuedIds (e :: rest) = issuedIds [e] ++ issuedIds rest := by
  cases e <;> simp [issuedIds]

theorem ids_foldl (trace : List Event) (t : PendingTable) :
    (trace.foldl step t).map (fun p => p.id) = t.map (fun p => p.id) ++ issuedIds trace := by
  induction trace generalizing t with
  | nil => simp [issuedIds]
  | cons e rest ih =>
    rw [List.foldl_cons, ih, ids_step, issuedIds_cons e rest, List.append_assoc]

theorem received_foldl (trace : List Event) (t : PendingTable) (issued : List Nat) (k : Nat)
    (hissued : ∀ i ∈ issued, i ∈ t.map (fun p => p.id))
    (hanswers : answersIssued issued trace = true) :
    received (trace.foldl step t) k =
      match received t k with
      | some c => some c
      | none => (arrived trace).find? (fun r => r.id == k) := by
  induction trace generalizing t issued with
  | nil => simp [arrived]; cases received t k <;> rfl
  | cons e rest ih =>
    cases e with
    | call id issuedAt =>
      simp only [List.foldl_cons, step, arrived]
      simp only [answersIssued] at hanswers
      rw [ih (Register t id issuedAt) (id :: issued) ?_ hanswers, received_register]
      intro i hi
      rcases List.mem_cons.mp hi with h | h
      · simp [Register, h]
      · have := hissued i h
        simp only [Register, List.map_append, List.mem_append]
        exact Or.inl this
    | response r =>
      simp only [List.foldl_cons, step, arrived]
      simp only [answersIssued, Bool.and_eq_true] at hanswers
      have hreg : r.id ∈ t.map (fun p => p.id) := hissued r.id (by simpa using hanswers.1)
      rw [ih (dispatchResponse t r) issued ?_ hanswers.2, received_dispatch t r k hreg]
      · cases hc : received t k with
        | some c => rfl
        | none =>
          by_cases hk : r.id = k
          · simp [hk]
          · simp [hk]
      · intro i hi
        have := hissued i hi
        simpa [dispatchResponse, ids_resolve] using this

theorem filter_of_nodup (t : PendingTable) (k : Nat)
    (hnd : (t.map fun p => p.id).Nodup) (hk : k ∈ t.map fun p => p.id) :
    ∃ p, t.filter (fun q => q.id == k) = [p] ∧ t.find? (fun q => q.id == k) = some p := by
  induction t with
  | nil => simp at hk
  | cons q rest ih =>
    simp only [List.map_cons, List.nodup_cons] at hnd
    by_cases hq : q.id = k
    · refine ⟨q, ?_, by simp [hq]⟩
      have hrest : rest.filter (fun x => x.id == k) = [] := by
        rw [List.filter_eq_nil_iff]
        intro x hx hxk
        have hxid : x.id = k := by simpa using hxk
        exact hnd.1 (hq ▸ hxid ▸ List.mem_map_of_mem (fun p => p.id) hx)
      simp [hq, hrest]
    · have hk2 : k ∈ rest.map fun p => p.id := by
        rcases List.mem_cons.mp hk with h | h
        · exact absurd h.symm hq
        · exact h
      obtain ⟨p, hp1, hp2⟩ := ih hnd.2 hk2
      exact ⟨p, by simp [hq, hp1], by simp [hq, hp2]⟩

/-- C6. On one session, for any number of Calls issued under distinct ids and
for every order in which Calls are issued and Responses arrive (each Response
after the Call it answers), the Call issued under an id has exactly one
entry in the table, and what its caller receives is the Response that carries
that id: the first such Response to arrive, never one carrying another id, and
nothing as long as none has arrived. -/
theorem responses_correlated (trace : List Event) (id : Nat)
    (hdistinct : (issuedIds trace).Nodup)
    (hanswers : answersIssued [] trace = true)
    (hissued : id ∈ issuedIds trace) :
    ∃ p : PendingRequest,
      (run trace).filter (fun q => q.id == id) = [p] ∧
      p.completion = received (run trace) id ∧
      received (run trace) id = (arrived trace).find? (fun r => r.id == id) ∧
      (∀ r, received (run trace) id = some r → r.id = id ∧ r ∈ arrived trace) ∧
      (∀ r ∈ arrived trace, r.id = id →
        (∀ other ∈ arrived trace, other.id = id → other = r) →
        received (run trace) id = some r) := by
  have hids : (run trace).map (fun p => p.id) = issuedIds trace := by
    simpa [run] using ids_foldl trace []
  have hrec : received (run trace) id = (arrived trace).find? (fun r => r.id == id) := by
    have := received_foldl trace [] [] id (by simp) hanswers
    simpa [run, received] using this
  obtain ⟨p, hp1, hp2⟩ := filter_of_nodup (run trace) id (hids ▸ hdistinct) (hids ▸ hissued)
  refine ⟨p, hp1, by simp [received, hp2], hrec, ?_, ?_⟩
  · intro r hr
    rw [hrec] at hr
    exact ⟨by simpa using List.find?_some hr, List.mem_of_find?_eq_some hr⟩
  · intro r hr hrid honly
    rw [hrec]
    cases hf : (arrived trace).find? (fun x => x.id == id) with
    | none =>
      have := List.find?_eq_none.mp hf r hr
      simp [hrid] at this
    | some x =>
      have hx : x.id = id := by simpa using List.find?_some hf
      rw [honly x (List.mem_of_find?_eq_some hf) hx]

theorem responses_correlated_witness :
    (issuedIds [.call 7 0, .call 8 1, .response ⟨8, .error ⟨METHOD_NOT_FOUND, "no"⟩⟩,
        .call 9 2, .response ⟨9, .ok (.str "c")⟩, .response ⟨7, .ok (.str "a")⟩]).Nodup ∧
    answersIssued [] [.call 7 0, .call 8 1, .response ⟨8, .error ⟨METHOD_NOT_FOUND, "no"⟩⟩,
        .call 9 2, .response ⟨9, .ok (.str "c")⟩, .response ⟨7, .ok (.str "a")⟩] = true ∧
    7 ∈ issuedIds [.call 7 0, .call 8 1, .response ⟨8, .error ⟨METHOD_NOT_FOUND, "no"⟩⟩,
        .call 9 2, .response ⟨9, .ok (.str "c")⟩, .response ⟨7, .ok (.str "a")⟩] ∧
    received (run [.call 7 0, .call 8 1, .response ⟨8, .error ⟨METHOD_NOT_FOUND, "no"⟩⟩,
        .call 9 2, .response ⟨9, .ok (.str "c")⟩, .response ⟨7, .ok (.str "a")⟩]) 7 =
      some ⟨7, .ok (.str "a")⟩ ∧
    ∃ p : PendingRequest,
      (run [.call 7 0, .call 8 1, .response ⟨8, .error ⟨METHOD_NOT_FOUND, "no"⟩⟩,
        .call 9 2, .response ⟨9, .ok (.str "c")⟩, .response ⟨7, .ok (.str "a")⟩]).filter
          (fun q => q.id == 7) = [p] ∧
      p.completion = some ⟨7, .ok (.str "a")⟩ := by
  obtain ⟨p, hp, hc, _⟩ := responses_correlated
    [.call 7 0, .call 8 1, .response ⟨8, .error ⟨METHOD_NOT_FOUND, "no"⟩⟩,
      .call 9 2, .response ⟨9, .ok (.str "c")⟩, .response ⟨7, .ok (.str "a")⟩] 7
    (by decide) rfl (by decide)
  exact ⟨by decide, rfl, by decide, rfl, p, hp, hc.trans rfl⟩

end Session

namespace SimpleClient

open SimpleTool

/-! ## The client against the example server -/

/-- C9. The example client run against the example server obtains no tool
result: the first tool of the list `handleListTools` returns is `"echo"`, the
client calls it with an empty arguments map, `handleCallTool` answers these
params with the INVALID_PARAMS error, and `main` ends in its
`"Failed to call tool"` branch without printing a tool result. -/
theorem main_fails_to_call_tool (now : String) (init : InitializeResult)
    (listParams : Value) (omitEmpty : Bool) :
    (∃ (r : ListToolsResult) (first : Tool) (rest : List Tool),
        handleListTools listParams = (some r, none) ∧ r.Tools = first :: rest ∧
        first.Name = "echo") ∧
    handleCallTool now (callToolParams omitEmpty "echo" []) =
      (none, some { Code := INVALID_PARAMS,
                    Message := "Missing or invalid 'message' parameter" }) ∧
    main (.ok (connectedClient now init listParams omitEmpty)) =
      { stdout := [.connectedToServer init.ServerInfoName init.ServerInfoVersion,
                   .protocolVersion init.ProtocolVersion,
                   .availableTools,
                   .toolLine "echo" "Echoes back the input message",
                   .toolLine "timestamp" "Returns the current server timestamp",
                   .callingTool "echo"],
        exit := .fatal "Failed to call tool: %v"
          { Code := INVALID_PARAMS, Message := "Missing or invalid 'message' parameter" } } ∧
    ∀ result, Printed.toolResult result ∉
      (main (.ok (connectedClient now init listParams omitEmpty))).stdout := by
  have hcall : handleCallTool now (callToolParams omitEmpty "echo" []) =
      (none, some { Code := INVALID_PARAMS,
                    Message := "Missing or invalid 'message' parameter" }) := by
    cases omitEmpty <;> rfl
  have hmain : main (.ok (connectedClient now init listParams omitEmpty)) =
      { stdout := [.connectedToServer init.ServerInfoName init.ServerInfoVersion,
                   .protocolVersion init.ProtocolVersion,
                   .availableTools,
                   .toolLine "echo" "Echoes back the input message",
                   .toolLine "timestamp" "Returns the current server timestamp",
                   .callingTool "echo"],
        exit := .fatal "Failed to call tool: %v"
          { Code := INVALID_PARAMS, Message := "Missing or invalid 'message' parameter" } } := by
    cases omitEmpty <;> rfl
  refine ⟨⟨_, _, _, rfl, rfl, rfl⟩, hcall, hmain, ?_⟩
  intro result hmem
  rw [hmain] at hmem
  simp at hmem

end SimpleClient
